import Mathlib

/-!
Shallow embedding of `ust_download_cache/ust_download_cache.py`, a local disk
cache for remotely fetched JSON documents keyed by URL, with TTL expiry and
transparent bz2 decompression.

Modelling conventions:
* Python `dict`s (the in-memory `file_cache`, the filesystem view, JSON
  objects) are association lists with Python-dict operation semantics
  (assignment replaces in place or appends, `del` removes, lookup finds the
  unique matching key).
* External collaborators are oracles passed in an `Env`:
  `remote` (what pycurl would materialise for a URL; `none` = transport
  error), `decompress` (the bz2 library; `none` = decompression failure),
  `parse` (`json.loads`; `none` = `json.JSONDecodeError`), plus the wall
  clock `now` read by `time.time()` and the `uuid`-generated fresh file name.
* Python exceptions become an error type; each function returns its result
  together with the mutated state (mutations made before an exception
  persist, as in Python) and an effect log counting downloads, file
  removals and cache saves.
* Machine-level restriction: `timestamp`/`ttl` are embedded as `Int`
  (`time.time()` is truncated to an integer in the source and §6 of the
  content contract requires integer `timestamp`/`ttl`); a fetched document
  carrying a non-integer in those fields is mapped to a type error.
-/

namespace UstCache

/-- A JSON value as produced by `json.loads` (numbers restricted to `Int`). -/
inductive Json where
  | null : Json
  | bool (b : Bool) : Json
  | num (n : Int) : Json
  | str (s : String) : Json
  | arr (elems : List Json) : Json
  | obj (fields : List (String × Json)) : Json
deriving Repr

/-- Python exceptions raised by the code, distinguished by site/class. -/
inductive CacheError where
  | fetchFailed          -- "Downloading %s failed"
  | metadataMissing      -- "Error parsing metadata from file."
  | decompressionFailed  -- "Failed to decompress bz2 archive"
  | jsonDecodeError      -- json.JSONDecodeError from json.loads / json.load
  | keyError             -- Python KeyError (dict subscript with absent key)
  | typeError            -- Python TypeError (bad subscript / membership test)
  | attributeError       -- Python AttributeError (missing attribute/method)
  | fileNotFound         -- FileNotFoundError (open / os.remove on absent path)
deriving Repr, DecidableEq

/-- Embedding of `CachedFile.__init__`: one entry of the in-memory cache. -/
structure CachedFile where
  url : String
  path : String
  timestamp : Int
  ttl : Int
deriving Repr, DecidableEq

/-- Embedding of `CachedFile.is_expired`: `(now - self.timestamp) > self.ttl`, where
`now = int(time.time())` is read from the wall clock at property access. -/
def CachedFile.is_expired (cf : CachedFile) (now : Int) : Bool :=
  (now - cf.timestamp) > cf.ttl

/-- The flat record `CacheJSONEncoder` writes for a `CachedFile`
(`o.__dict__`: exactly the four attributes). -/
structure StoredRecord where
  url : String
  path : String
  timestamp : Int
  ttl : Int
deriving Repr, DecidableEq

/- Association-list operations with Python `dict` semantics.  Keys are
unique by construction from these operations. -/

/-- Python dict lookup `d[k]` (as an `Option`). -/
def alookup {α : Type} : List (String × α) → String → Option α
  | [], _ => none
  | (k, v) :: rest, u => if k = u then some v else alookup rest u

/-- Python dict assignment `d[k] = v`: replace in place if the key is present, append otherwise. -/
def ainsert {α : Type} : List (String × α) → String → α → List (String × α)
  | [], u, v => [(u, v)]
  | (k, w) :: rest, u, v =>
    if k = u then (k, v) :: rest else (k, w) :: ainsert rest u v

/-- Python dict deletion `del d[k]` (the caller checks presence; on unique-keyed lists this
removes the one binding of `k`). -/
def aerase {α : Type} : List (String × α) → String → List (String × α)
  | [], _ => []
  | (k, w) :: rest, u =>
    if k = u then aerase rest u else (k, w) :: aerase rest u

/-- The mutable state of a `USTDownloadCache` instance together with the
parts of the world it owns: the in-memory `self.file_cache`, the cache
directory's files (path ↦ bytes), and the persisted `file_cache.json`
document (`none` = the file does not exist). -/
structure CacheState where
  file_cache : List (String × CachedFile)
  fs : List (String × List Nat)
  persisted : Option (List (String × StoredRecord))
deriving Repr, DecidableEq

/-- Counts of the observable side effects of one call: pycurl downloads
performed, paths passed to `os.remove`, and `save_cache` executions. -/
structure Effects where
  fetches : Nat
  deletions : List String
  saves : Nat
deriving Repr, DecidableEq

def Effects.zero : Effects := ⟨0, [], 0⟩

def Effects.add (e₁ e₂ : Effects) : Effects :=
  ⟨e₁.fetches + e₂.fetches, e₁.deletions ++ e₂.deletions, e₁.saves + e₂.saves⟩

/-- External collaborators and per-call environment. -/
structure Env where
  now : Int
  freshPath : String
  remote : String → Option (List Nat)
  decompress : List Nat → Option (List Nat)
  parse : List Nat → Option Json

/- Python semantics of the two JSON-value operations the source uses. -/

/-- Python substring test `needle in hay` on strings. -/
def strContains (hay needle : String) : Bool :=
  needle.isEmpty || (hay.splitOn needle).length ≥ 2

/-- Python `key in j` for a `json.loads` result: key membership on a dict,
element membership on a list, substring test on a string, `TypeError`
otherwise. -/
def pyContains (j : Json) (key : String) : Except CacheError Bool :=
  match j with
  | .obj fields => .ok (fields.any (fun p => p.1 = key))
  | .arr elems =>
    .ok (elems.any (fun e => match e with | .str s => s = key | _ => false))
  | .str s => .ok (strContains s key)
  | _ => .error .typeError

/-- Python `j[key]` for a `json.loads` result: dict lookup (`KeyError` when
absent), `TypeError` on any non-dict. -/
def pySubscript (j : Json) (key : String) : Except CacheError Json :=
  match j with
  | .obj fields =>
    match alookup fields key with
    | some v => .ok v
    | none => .error .keyError
  | _ => .error .typeError

/- Content decoding (`_is_bz2`, `_read_cached_file`, the `json.loads` step
of `get_from_url`). -/

/-- Embedding of `_is_bz2`: the first two bytes of the file equal `b"BZ"` (0x42 0x5A). -/
def _is_bz2 (bytes : List Nat) : Bool :=
  bytes.take 2 = [66, 90]

/-- The content-level core of `_read_cached_file`: sniff, then either
decompress the full stream (failure is a hard error) or return the raw
bytes. -/
def readBytes (decompress : List Nat → Option (List Nat)) (bytes : List Nat) :
    Except CacheError (List Nat) :=
  if _is_bz2 bytes then
    match decompress bytes with
    | some contents => .ok contents
    | none => .error .decompressionFailed
  else
    .ok bytes

/-- Embedding of `_read_cached_file(path)`: open the file (opening a missing path
raises) and decode its bytes. -/
def _read_cached_file (env : Env) (fs : List (String × List Nat))
    (path : String) : Except CacheError (List Nat) :=
  match alookup fs path with
  | none => .error .fileNotFound
  | some bytes => readBytes env.decompress bytes

/-- Composition of `_read_cached_file` and `json.loads`, as performed both by
`get_from_url` (lines 97–98) and `_get_file_metadata` (lines 138–140). -/
def decodeAt (env : Env) (fs : List (String × List Nat)) (path : String) :
    Except CacheError Json :=
  match _read_cached_file env fs path with
  | .error e => .error e
  | .ok contents =>
    match env.parse contents with
    | none => .error .jsonDecodeError
    | some j => .ok j

/-- Embedding of `_get_file_metadata(path)`: decode the file, raise
`"Error parsing metadata from file."` when `"metadata" not in json_data`,
otherwise return `json_data["metadata"]`. -/
def _get_file_metadata (env : Env) (fs : List (String × List Nat))
    (path : String) : Except CacheError Json :=
  match decodeAt env fs path with
  | .error e => .error e
  | .ok j =>
    match pyContains j "metadata" with
    | .error e => .error e
    | .ok false => .error .metadataMissing
    | .ok true => pySubscript j "metadata"

/- Persistence (`save_cache`, `CacheJSONEncoder`, `_load_file_cache`). -/

/-- The document `json.dump(self.file_cache, cls=CacheJSONEncoder)` writes:
each entry serialized, keyed by source id, as the flat record of its four
attributes. -/
def save_doc (fc : List (String × CachedFile)) : List (String × StoredRecord) :=
  fc.map (fun p => (p.1, ⟨p.2.url, p.2.path, p.2.timestamp, p.2.ttl⟩))

/-- Embedding of `save_cache`: rewrite the persisted document from the in-memory map.
(The `cache_metadata_file is None` guard in the source is unreachable:
`__init__` always assigns the path.) -/
def save_cache (st : CacheState) : CacheState × Effects :=
  ({ st with persisted := some (save_doc st.file_cache) }, ⟨0, [], 1⟩)

/-- The JSON form of one `StoredRecord` inside `file_cache.json`. -/
def recordToJson (r : StoredRecord) : Json :=
  .obj [("url", .str r.url), ("path", .str r.path),
        ("timestamp", .num r.timestamp), ("ttl", .num r.ttl)]

/-- The full `file_cache.json` document as a JSON value. -/
def save_json (fc : List (String × CachedFile)) : Json :=
  .obj ((save_doc fc).map (fun p => (p.1, recordToJson p.2)))

/-- One iteration of the `_load_file_cache` loop body:
`CachedFile(url, cached_file["path"], cached_file["timestamp"],
cached_file["ttl"])`.  The reconstructed entry's `url` is the outer
document key.  (Non-string path or non-integer timestamp/ttl values are
mapped to a type error: see the header note.) -/
def entryOfJson (url : String) (j : Json) : Except CacheError CachedFile :=
  match pySubscript j "path" with
  | .error e => .error e
  | .ok pj =>
    match pySubscript j "timestamp" with
    | .error e => .error e
    | .ok tj =>
      match pySubscript j "ttl" with
      | .error e => .error e
      | .ok lj =>
        match pj, tj, lj with
        | .str p, .num t, .num l => .ok ⟨url, p, t, l⟩
        | _, _, _ => .error .typeError

/-- Loop body of `for url, cached_file in cache_contents.items()`: entries are
assigned into `self.file_cache` one at a time, so entries processed before
a failing one stay in the map (as in Python). -/
def loadEntries : List (String × Json) → List (String × CachedFile) →
    List (String × CachedFile) × Option CacheError
  | [], acc => (acc, none)
  | (u, j) :: rest, acc =>
    match entryOfJson u j with
    | .error e => (acc, some e)
    | .ok cf => loadEntries rest (ainsert acc u cf)

/-- Iteration `cache_contents.items()` over the parsed document
(`.items()` on a non-dict raises `AttributeError`). -/
def loadStore (j : Json) : List (String × CachedFile) × Option CacheError :=
  match j with
  | .obj fields => loadEntries fields []
  | _ => ([], some .attributeError)

/-- Embedding of `_load_file_cache`: start from an empty map; if `file_cache.json` does
not exist this is not an error; if it exists, `json.load` it (failure
propagates) and rebuild the entries. -/
def _load_file_cache (parse : List Nat → Option Json)
    (disk : Option (List Nat)) :
    List (String × CachedFile) × Option CacheError :=
  match disk with
  | none => ([], none)
  | some bytes =>
    match parse bytes with
    | none => ([], some .jsonDecodeError)
    | some j => loadStore j

/- The fetch-and-register path and the entry point `get_from_url`. -/

/-- Embedding of `_download(url, filename)`: `open(filename, "wb")` creates the target
file before pycurl runs, so the file exists (empty here) even when the
transfer fails and the wrapped exception is raised. -/
def _download (env : Env) (st : CacheState) (url filename : String) :
    Except CacheError Unit × CacheState × Effects :=
  match env.remote url with
  | some content =>
    (.ok (), { st with fs := ainsert st.fs filename content }, ⟨1, [], 0⟩)
  | none =>
    (.error .fetchFailed, { st with fs := ainsert st.fs filename [] }, ⟨1, [], 0⟩)

/-- Embedding of `_download_and_cache_file(url)`: download to a fresh uuid-named path,
extract `metadata`, read `metadata["timestamp"]` then `metadata["ttl"]`
(left-to-right, as Python evaluates the `CachedFile(...)` arguments),
insert the new entry under `url`, and `save_cache()`. -/
def _download_and_cache_file (env : Env) (st : CacheState) (url : String) :
    Except CacheError Unit × CacheState × Effects :=
  let path := env.freshPath
  match _download env st url path with
  | (.error e, st₁, eff) => (.error e, st₁, eff)
  | (.ok _, st₁, eff) =>
    match _get_file_metadata env st₁.fs path with
    | .error e => (.error e, st₁, eff)
    | .ok md =>
      match pySubscript md "timestamp" with
      | .error e => (.error e, st₁, eff)
      | .ok tj =>
        match pySubscript md "ttl" with
        | .error e => (.error e, st₁, eff)
        | .ok lj =>
          match tj, lj with
          | .num t, .num l =>
            let st₂ := { st₁ with
              file_cache := ainsert st₁.file_cache url ⟨url, path, t, l⟩ }
            let (st₃, eff₂) := save_cache st₂
            (.ok (), st₃, eff.add eff₂)
          | _, _ => (.error .typeError, st₁, eff)

/-- Embedding of `_remove_expired_file(cached_file)`: `os.remove(cached_file.path)`
(raising when the path is absent), then `del self.file_cache[cached_file.url]`
(raising `KeyError` when that key is absent — the file removal persists). -/
def _remove_expired_file (st : CacheState) (cf : CachedFile) :
    Except CacheError Unit × CacheState × Effects :=
  match alookup st.fs cf.path with
  | none => (.error .fileNotFound, st, Effects.zero)
  | some _ =>
    match alookup st.file_cache cf.url with
    | none =>
      (.error .keyError, { st with fs := aerase st.fs cf.path },
        ⟨0, [cf.path], 0⟩)
    | some _ =>
      (.ok (),
        { st with
            fs := aerase st.fs cf.path
            file_cache := aerase st.file_cache cf.url },
        ⟨0, [cf.path], 0⟩)

/-- The trailing `return self.file_cache[url].path` of
`_get_cached_file_path`: a fresh dict lookup. -/
def finalLookup (st : CacheState) (url : String) (eff : Effects) :
    Except CacheError String × CacheState × Effects :=
  match alookup st.file_cache url with
  | some cf => (.ok cf.path, st, eff)
  | none => (.error .keyError, st, eff)

/-- Embedding of `_get_cached_file_path(url)`.  On a present, expired entry the source
(line 111) calls `self._cache_file(url)`, a method that is defined nowhere
in the class, so after `_remove_expired_file` has run Python raises
`AttributeError` at that line. -/
def _get_cached_file_path (env : Env) (st : CacheState) (url : String) :
    Except CacheError String × CacheState × Effects :=
  match alookup st.file_cache url with
  | some cf =>
    if cf.is_expired env.now then
      match _remove_expired_file st cf with
      | (.error e, st₁, eff) => (.error e, st₁, eff)
      | (.ok _, st₁, eff) => (.error .attributeError, st₁, eff)
    else
      finalLookup st url Effects.zero
  | none =>
    match _download_and_cache_file env st url with
    | (.error e, st₁, eff) => (.error e, st₁, eff)
    | (.ok _, st₁, eff) => finalLookup st₁ url eff

/-- Embedding of `get_from_url(url)`: resolve a cached path, read the file, `json.loads`
its decoded bytes. -/
def get_from_url (env : Env) (st : CacheState) (url : String) :
    Except CacheError Json × CacheState × Effects :=
  match _get_cached_file_path env st url with
  | (.error e, st₁, eff) => (.error e, st₁, eff)
  | (.ok path, st₁, eff) => (decodeAt env st₁.fs path, st₁, eff)

/-- The key-consistency invariant: every entry in the in-memory map stores
the key it is filed under as its `url` attribute. -/
def StoreInv (fc : List (String × CachedFile)) : Prop :=
  ∀ p ∈ fc, (p.2).url = p.1

/- Concrete instances used by the closed evaluation, counterexample
and witness theorems below. -/

def c1Env : Env :=
  { now := 100, freshPath := "/cache/new",
    remote := fun _ => some [10],
    decompress := fun _ => none,
    parse := fun _ => some (.obj [("metadata",
      .obj [("timestamp", .num 100), ("ttl", .num 60)])]) }

def c1St : CacheState :=
  { file_cache := [("u", ⟨"u", "/cache/old", 0, 10⟩)],
    fs := [("/cache/old", [1])],
    persisted := some [("u", ⟨"u", "/cache/old", 0, 10⟩)] }

def c2xEnv : Env :=
  { now := 0, freshPath := "/f2",
    remote := fun _ => some [10],
    decompress := fun _ => none,
    parse := fun _ => some (.obj [("metadata", .obj [])]) }

def c2xSt : CacheState := { file_cache := [], fs := [], persisted := none }

def c2wEnv : Env :=
  { now := 0, freshPath := "/f3",
    remote := fun _ => some [11],
    decompress := fun _ => none,
    parse := fun _ => some (.obj [("value", .num 1)]) }

def c3Env : Env :=
  { now := 0, freshPath := "/f1",
    remote := fun _ => some [10, 20],
    decompress := fun _ => none,
    parse := fun b =>
      if b = [10, 20] then
        some (.obj [("metadata", .obj [("timestamp", .num 1000),
                                       ("ttl", .num 60)]),
                    ("value", .num 42)])
      else none }

def c3St : CacheState := { file_cache := [], fs := [], persisted := none }

def c4Env : Env :=
  { now := 100, freshPath := "/x", remote := fun _ => none,
    decompress := fun _ => none,
    parse := fun b => if b = [1] then some (.num 7) else none }

def c4St : CacheState :=
  { file_cache := [("u", ⟨"u", "/old", 95, 10⟩)],
    fs := [("/old", [1])], persisted := none }

def c9Env : Env :=
  { now := 3, freshPath := "/z", remote := fun _ => none,
    decompress := fun _ => none, parse := fun _ => none }

def c9St : CacheState :=
  { file_cache := [("w", ⟨"w", "/q", 0, 5⟩)], fs := [("/q", [3])],
    persisted := none }

def c10Env : Env :=
  { now := 50, freshPath := "/y", remote := fun _ => none,
    decompress := fun _ => none,
    parse := fun b => if b = [2] then some (.bool true) else none }

def c10St : CacheState :=
  { file_cache := [("v", ⟨"v", "/keep", 50, 0⟩)],
    fs := [("/keep", [2])],
    persisted := some [("v", ⟨"v", "/keep", 50, 0⟩)] }

/- Association-list lemmas. -/

theorem alookup_ainsert_self {α : Type} (l : List (String × α)) (k : String)
    (v : α) : alookup (ainsert l k v) k = some v := by
  induction l with
  | nil => simp [ainsert, alookup]
  | cons p rest ih =>
    by_cases h : p.1 = k
    · simp [ainsert, alookup, h]
    · simp [ainsert, alookup, h, ih]

theorem ainsert_of_absent {α : Type} (l : List (String × α)) (k : String)
    (v : α) (h : alookup l k = none) : ainsert l k v = l ++ [(k, v)] := by
  induction l with
  | nil => simp [ainsert]
  | cons p rest ih =>
    by_cases hk : p.1 = k
    · simp [alookup, hk] at h
    · simp only [alookup, hk, if_neg] at h
      simp [ainsert, hk, ih h]

theorem alookup_append {α : Type} (l₁ l₂ : List (String × α)) (k : String) :
    alookup (l₁ ++ l₂) k =
      match alookup l₁ k with
      | some v => some v
      | none => alookup l₂ k := by
  induction l₁ with
  | nil => simp [alookup]
  | cons p rest ih =>
    by_cases hk : p.1 = k
    · simp [alookup, hk]
    · simp [alookup, hk, ih]

/-- C6: decoding sniffs exactly the first two bytes; the `BZ` signature
(bytes 0x42 0x5A) routes the full stream through decompression, anything
else is returned raw; a stream bearing the signature that fails to
decompress is a hard `DecompressionFailed` error, never treated as raw. -/
theorem C6_decode_sniff (decompress : List Nat → Option (List Nat))
    (bytes bytes' : List Nat) :
    (bytes.take 2 = bytes'.take 2 → _is_bz2 bytes = _is_bz2 bytes') ∧
    (_is_bz2 bytes = true ↔ bytes.take 2 = [66, 90]) ∧
    (_is_bz2 bytes = true →
      readBytes decompress bytes =
        match decompress bytes with
        | some c => .ok c
        | none => .error .decompressionFailed) ∧
    (_is_bz2 bytes = false → readBytes decompress bytes = .ok bytes) ∧
    (_is_bz2 bytes = true → decompress bytes = none →
      readBytes decompress bytes = .error .decompressionFailed) := by
  refine ⟨fun h => ?_, ?_, fun h => ?_, fun h => ?_, fun h hd => ?_⟩
  · simp [_is_bz2, h]
  · simp [_is_bz2]
  · simp [readBytes, h]
  · simp [readBytes, h]
  · simp [readBytes, h, hd]

/-- Witness for C6 at concrete inputs. -/
theorem C6_decode_sniff_witness :
    _is_bz2 [66, 90, 7] = _is_bz2 [66, 90] ∧
    readBytes (fun _ => none) [66, 90, 7] = .error .decompressionFailed ∧
    readBytes (fun _ => none) [65, 90, 7] = .ok [65, 90, 7] := by
  refine ⟨(C6_decode_sniff (fun _ => none) [66, 90, 7] [66, 90]).1 rfl,
    (C6_decode_sniff (fun _ => none) [66, 90, 7] [66, 90]).2.2.2.2 rfl rfl,
    (C6_decode_sniff (fun _ => none) [65, 90, 7] [66, 90]).2.2.2.1 rfl⟩

/-- C7: loading the persisted store fails softly on absence (empty store,
no error) and hard on corruption (a `json.load` failure propagates instead
of yielding a partial or empty model). -/
theorem C7_load_soft_absent_hard_corrupt (parse : List Nat → Option Json)
    (bytes : List Nat) :
    _load_file_cache parse none = ([], none) ∧
    (parse bytes = none →
      _load_file_cache parse (some bytes) = ([], some .jsonDecodeError)) := by
  refine ⟨rfl, fun h => ?_⟩
  simp [_load_file_cache, h]

/-- Witness for C7 at concrete inputs. -/
theorem C7_load_soft_absent_hard_corrupt_witness :
    _load_file_cache (fun _ => none) none = ([], none) ∧
    _load_file_cache (fun _ => none) (some [0]) =
      ([], some .jsonDecodeError) := by
  refine ⟨(C7_load_soft_absent_hard_corrupt (fun _ => none) [0]).1,
    (C7_load_soft_absent_hard_corrupt (fun _ => none) [0]).2 rfl⟩

/-- C8: `is_expired` is exactly `(now - capturedAt) > timeToLive` at the
wall clock supplied at query time; the boundary `now - capturedAt = ttl`
is not expired; and the value is a genuine function of the query-time
clock (for a nonnegative ttl it flips from fresh to expired as the clock
advances), so it cannot be a stored constant of the entry. -/
theorem C8_is_expired_def (cf : CachedFile) (now : Int) :
    cf.is_expired now = decide ((now - cf.timestamp) > cf.ttl) ∧
    (now - cf.timestamp = cf.ttl → cf.is_expired now = false) ∧
    (0 ≤ cf.ttl → cf.is_expired cf.timestamp = false ∧
      cf.is_expired (cf.timestamp + cf.ttl + 1) = true) := by
  refine ⟨rfl, fun h => ?_, fun h => ⟨?_, ?_⟩⟩
  · simp [CachedFile.is_expired, h]
  · simp [CachedFile.is_expired]; omega
  · simp [CachedFile.is_expired]; omega

/-- Witness for C8 at a concrete entry and clock. -/
theorem C8_is_expired_def_witness :
    (CachedFile.mk "u" "/p" 5 10).is_expired 15 = false ∧
    (CachedFile.mk "u" "/p" 5 10).is_expired 5 = false ∧
    (CachedFile.mk "u" "/p" 5 10).is_expired 16 = true := by
  refine ⟨(C8_is_expired_def (CachedFile.mk "u" "/p" 5 10) 15).2.1 (by decide),
    ((C8_is_expired_def (CachedFile.mk "u" "/p" 5 10) 15).2.2 (by decide)).1,
    ?_⟩
  exact ((C8_is_expired_def (CachedFile.mk "u" "/p" 5 10) 15).2.2 (by decide)).2

/-- Evaluation of `get_from_url` on a present, unexpired entry: the call
reduces to decoding the file at the entry's path, with no state change and
no side effects. -/
theorem fresh_hit_eval (env : Env) (st : CacheState) (url : String)
    (cf : CachedFile) (hl : alookup st.file_cache url = some cf)
    (hf : cf.is_expired env.now = false) :
    get_from_url env st url = (decodeAt env st.fs cf.path, st, Effects.zero) := by
  have h1 : _get_cached_file_path env st url = (.ok cf.path, st, Effects.zero) := by
    unfold _get_cached_file_path finalLookup
    rw [hl]
    simp [hf]
  unfold get_from_url
  rw [h1]

/-- C4: on a fresh hit (`now - capturedAt ≤ timeToLive`), `get_from_url`
performs zero fetches and returns the content decoded from the file at the
existing entry's path. -/
theorem C4_fresh_hit (env : Env) (st : CacheState) (url : String)
    (cf : CachedFile) (hl : alookup st.file_cache url = some cf)
    (hf : cf.is_expired env.now = false) :
    get_from_url env st url = (decodeAt env st.fs cf.path, st, Effects.zero) ∧
    (get_from_url env st url).2.2.fetches = 0 := by
  have h := fresh_hit_eval env st url cf hl hf
  exact ⟨h, by rw [h]; rfl⟩


/-- Witness for C4: a concrete fresh hit returns the decoded file with zero
fetches. -/
theorem C4_fresh_hit_witness :
    get_from_url c4Env c4St "u" = (.ok (.num 7), c4St, Effects.zero) := by
  have h := (C4_fresh_hit c4Env c4St "u" ⟨"u", "/old", 95, 10⟩ rfl (by decide)).1
  rw [h]
  rfl

/-- C10 (frame): on a fresh hit, the in-memory map, the cache directory and
the persisted index are all left unchanged, no file is deleted, nothing is
downloaded and nothing is saved; the call only decodes the file at the
entry's path. -/
theorem C10_fresh_hit_frame (env : Env) (st : CacheState) (url : String)
    (cf : CachedFile) (hl : alookup st.file_cache url = some cf)
    (hf : cf.is_expired env.now = false) :
    (get_from_url env st url).2.1 = st ∧
    (get_from_url env st url).2.2.fetches = 0 ∧
    (get_from_url env st url).2.2.deletions = [] ∧
    (get_from_url env st url).2.2.saves = 0 ∧
    (get_from_url env st url).1 = decodeAt env st.fs cf.path := by
  have h := fresh_hit_eval env st url cf hl hf
  rw [h]
  exact ⟨rfl, rfl, rfl, rfl, rfl⟩


/-- Witness for C10: a concrete fresh hit (at the exact TTL boundary)
leaves state and effects untouched. -/
theorem C10_fresh_hit_frame_witness :
    (get_from_url c10Env c10St "v").2.1 = c10St ∧
    (get_from_url c10Env c10St "v").2.2.fetches = 0 := by
  have h := C10_fresh_hit_frame c10Env c10St "v" ⟨"v", "/keep", 50, 0⟩ rfl (by decide)
  exact ⟨h.1, h.2.1⟩

/-- C3: on a cold miss, `get_from_url` performs exactly one fetch, appends
exactly one new entry for the requested source id (keyed and stamped with
the metadata's `timestamp`/`ttl`, stored at the fresh path), and persists
the store exactly once, the persisted document being the serialization of
the final map. -/
theorem C3_cold_miss (env : Env) (st : CacheState) (url : String)
    (content : List Nat) (md : Json) (t l : Int)
    (hl : alookup st.file_cache url = none)
    (hr : env.remote url = some content)
    (hmeta : _get_file_metadata env (ainsert st.fs env.freshPath content)
      env.freshPath = .ok md)
    (ht : pySubscript md "timestamp" = .ok (.num t))
    (httl : pySubscript md "ttl" = .ok (.num l)) :
    get_from_url env st url =
      (decodeAt env (ainsert st.fs env.freshPath content) env.freshPath,
       { file_cache := st.file_cache ++ [(url, ⟨url, env.freshPath, t, l⟩)],
         fs := ainsert st.fs env.freshPath content,
         persisted := some (save_doc
           (st.file_cache ++ [(url, ⟨url, env.freshPath, t, l⟩)])) },
       ⟨1, [], 1⟩) := by
  have hd : _download_and_cache_file env st url =
      (.ok (),
       { file_cache := ainsert st.file_cache url ⟨url, env.freshPath, t, l⟩,
         fs := ainsert st.fs env.freshPath content,
         persisted := some (save_doc
           (ainsert st.file_cache url ⟨url, env.freshPath, t, l⟩)) },
       ⟨1, [], 1⟩) := by
    unfold _download_and_cache_file _download
    rw [hr]
    dsimp only
    rw [hmeta]
    dsimp only
    rw [ht]
    dsimp only
    rw [httl]
    dsimp [save_cache, Effects.add]
  have hpath : _get_cached_file_path env st url =
      (.ok env.freshPath,
       { file_cache := ainsert st.file_cache url ⟨url, env.freshPath, t, l⟩,
         fs := ainsert st.fs env.freshPath content,
         persisted := some (save_doc
           (ainsert st.file_cache url ⟨url, env.freshPath, t, l⟩)) },
       ⟨1, [], 1⟩) := by
    unfold _get_cached_file_path finalLookup
    rw [hl]
    dsimp only
    rw [hd]
    dsimp only
    rw [alookup_ainsert_self]
  unfold get_from_url
  rw [hpath]
  rw [ainsert_of_absent st.file_cache url _ hl]


/-- Witness for C3: a concrete first call fetches once, adds the one entry
and persists it once. -/
theorem C3_cold_miss_witness :
    get_from_url c3Env c3St "u" =
      (.ok (.obj [("metadata", .obj [("timestamp", .num 1000),
                                     ("ttl", .num 60)]),
                  ("value", .num 42)]),
       { file_cache := [("u", ⟨"u", "/f1", 1000, 60⟩)],
         fs := [("/f1", [10, 20])],
         persisted := some [("u", ⟨"u", "/f1", 1000, 60⟩)] },
       ⟨1, [], 1⟩) := by
  have h := C3_cold_miss c3Env c3St "u" [10, 20]
    (.obj [("timestamp", .num 1000), ("ttl", .num 60)]) 1000 60
    rfl rfl (by rfl) (by rfl) (by rfl)
  rw [h]
  rfl

theorem cold_meta_error_eval (env : Env) (st : CacheState) (url : String)
    (content : List Nat) (e : CacheError)
    (hl : alookup st.file_cache url = none)
    (hr : env.remote url = some content)
    (hmeta : _get_file_metadata env (ainsert st.fs env.freshPath content)
      env.freshPath = .error e) :
    get_from_url env st url =
      (.error e, { st with fs := ainsert st.fs env.freshPath content },
       ⟨1, [], 0⟩) := by
  have hd : _download_and_cache_file env st url =
      (.error e, { st with fs := ainsert st.fs env.freshPath content },
       ⟨1, [], 0⟩) := by
    unfold _download_and_cache_file _download
    rw [hr]
    dsimp only
    rw [hmeta]
  have hpath : _get_cached_file_path env st url =
      (.error e, { st with fs := ainsert st.fs env.freshPath content },
       ⟨1, [], 0⟩) := by
    unfold _get_cached_file_path
    rw [hl]
    dsimp only
    rw [hd]
  unfold get_from_url
  rw [hpath]

theorem C2_metadata_missing (env : Env) (st : CacheState) (url : String)
    (content : List Nat) (j : Json)
    (hl : alookup st.file_cache url = none)
    (hr : env.remote url = some content)
    (hdec : decodeAt env (ainsert st.fs env.freshPath content)
      env.freshPath = .ok j) :
    (pyContains j "metadata" = .ok false →
      get_from_url env st url =
        (.error .metadataMissing,
         { st with fs := ainsert st.fs env.freshPath content }, ⟨1, [], 0⟩)) ∧
    (∀ md, pyContains j "metadata" = .ok true →
      pySubscript j "metadata" = .ok md →
      pySubscript md "timestamp" = .error .keyError →
      get_from_url env st url =
        (.error .keyError,
         { st with fs := ainsert st.fs env.freshPath content }, ⟨1, [], 0⟩)) ∧
    (∀ md tj, pyContains j "metadata" = .ok true →
      pySubscript j "metadata" = .ok md →
      pySubscript md "timestamp" = .ok tj →
      pySubscript md "ttl" = .error .keyError →
      get_from_url env st url =
        (.error .keyError,
         { st with fs := ainsert st.fs env.freshPath content }, ⟨1, [], 0⟩)) := by
  refine ⟨fun hc => ?_, fun md hc hmd hts => ?_, fun md tj hc hmd hts htl => ?_⟩
  · apply cold_meta_error_eval env st url content _ hl hr
    unfold _get_file_metadata
    rw [hdec]
    dsimp only
    rw [hc]
  · have hmeta : _get_file_metadata env (ainsert st.fs env.freshPath content)
        env.freshPath = .ok md := by
      unfold _get_file_metadata
      rw [hdec]
      dsimp only
      rw [hc]
      exact hmd
    have hd : _download_and_cache_file env st url =
        (.error .keyError,
         { st with fs := ainsert st.fs env.freshPath content }, ⟨1, [], 0⟩) := by
      unfold _download_and_cache_file _download
      rw [hr]
      dsimp only
      rw [hmeta]
      dsimp only
      rw [hts]
    have hpath : _get_cached_file_path env st url =
        (.error .keyError,
         { st with fs := ainsert st.fs env.freshPath content }, ⟨1, [], 0⟩) := by
      unfold _get_cached_file_path
      rw [hl]
      dsimp only
      rw [hd]
    unfold get_from_url
    rw [hpath]
  · have hmeta : _get_file_metadata env (ainsert st.fs env.freshPath content)
        env.freshPath = .ok md := by
      unfold _get_file_metadata
      rw [hdec]
      dsimp only
      rw [hc]
      exact hmd
    have hd : _download_and_cache_file env st url =
        (.error .keyError,
         { st with fs := ainsert st.fs env.freshPath content }, ⟨1, [], 0⟩) := by
      unfold _download_and_cache_file _download
      rw [hr]
      dsimp only
      rw [hmeta]
      dsimp only
      rw [hts]
      dsimp only
      rw [htl]
    have hpath : _get_cached_file_path env st url =
        (.error .keyError,
         { st with fs := ainsert st.fs env.freshPath content }, ⟨1, [], 0⟩) := by
      unfold _get_cached_file_path
      rw [hl]
      dsimp only
      rw [hd]
    unfold get_from_url
    rw [hpath]


/-- Counterexample for C2 as stated: the fetched file decodes to
`{"metadata": {}}` — structured data whose `metadata` section lacks the
`timestamp` and `ttl` fields — yet the call fails with Python's `KeyError`
(raised by `metadata["timestamp"]`), not with the `MetadataMissing` error
(`"Error parsing metadata from file."`), which is raised only when the
`metadata` key itself is absent. -/
theorem C2_counterexample :
    c2xEnv.parse [10] = some (.obj [("metadata", .obj [])]) ∧
    (get_from_url c2xEnv c2xSt "u").1 = .error .keyError ∧
    CacheError.keyError ≠ CacheError.metadataMissing := by
  exact ⟨rfl, rfl, by decide⟩


/-- Witness for C2 (amended): decoded content `{"value": 1}` without a
`metadata` key fails with `MetadataMissing`, leaving the store map and the
persisted document untouched. -/
theorem C2_metadata_missing_witness :
    get_from_url c2wEnv c2xSt "u" =
      (.error .metadataMissing,
       { file_cache := [], fs := [("/f3", [11])], persisted := none },
       ⟨1, [], 0⟩) := by
  have h := (C2_metadata_missing c2wEnv c2xSt "u" [11]
    (.obj [("value", .num 1)]) rfl rfl (by rfl)).1 (by rfl)
  rw [h]
  rfl


/-- C1 evaluated at a store holding an expired entry (`now - capturedAt =
100 > 10 = ttl`, with a working remote): the code deletes the old file and
removes the old entry, but then line 111 invokes `self._cache_file(url)` —
a method defined nowhere in the class — so the call dies with
`AttributeError`: zero fetches are performed, no fresh entry is recorded,
and the persisted index still names the deleted file. -/
theorem C1_expired_path_eval :
    get_from_url c1Env c1St "u" =
      (.error .attributeError,
       { file_cache := [], fs := [],
         persisted := some [("u", ⟨"u", "/cache/old", 0, 10⟩)] },
       { fetches := 0, deletions := ["/cache/old"], saves := 0 }) := by
  rfl

theorem entryOfJson_recordToJson (u : String) (r : StoredRecord) :
    entryOfJson u (recordToJson r) = .ok ⟨u, r.path, r.timestamp, r.ttl⟩ := by
  simp [entryOfJson, recordToJson, pySubscript, alookup]

theorem loadEntries_save_doc (S : List (String × CachedFile))
    (acc : List (String × CachedFile))
    (hnd : (S.map Prod.fst).Nodup)
    (hwf : StoreInv S)
    (hdisj : ∀ p ∈ S, alookup acc p.1 = none) :
    loadEntries ((save_doc S).map (fun p => (p.1, recordToJson p.2))) acc =
      (acc ++ S, none) := by
  induction S generalizing acc with
  | nil => simp [save_doc, loadEntries]
  | cons p rest ih =>
    obtain ⟨u, cf⟩ := p
    simp only [List.map_cons, List.nodup_cons] at hnd
    obtain ⟨hnotin, hnd'⟩ := hnd
    have hu : cf.url = u := hwf (u, cf) (by simp)
    have hcf : (⟨u, cf.path, cf.timestamp, cf.ttl⟩ : CachedFile) = cf := by
      cases cf
      simp_all
    simp only [save_doc, List.map_cons, loadEntries, entryOfJson_recordToJson]
    rw [hcf, ainsert_of_absent acc u cf (hdisj (u, cf) (by simp))]
    have hwf' : StoreInv rest := fun q hq => hwf q (by simp [hq])
    have hdisj' : ∀ q ∈ rest, alookup (acc ++ [(u, cf)]) q.1 = none := by
      intro q hq
      have h1 : alookup acc q.1 = none := hdisj q (by simp [hq])
      have h2 : ¬u = q.1 := by
        intro hc
        exact hnotin (hc ▸ List.mem_map_of_mem Prod.fst hq)
      rw [alookup_append]
      simp [h1, alookup, h2]
    have hrec := ih (acc ++ [(u, cf)]) hnd' hwf' hdisj'
    simp only [save_doc] at hrec
    rw [hrec]
    simp

/-- C5: the persisted document round-trips: saving serializes each entry as
the flat record of its four attributes keyed by source id, loading
reconstructs full entries from those records, and for a well-formed store
(unique keys, each entry's `url` equal to its key)
`save(load(save(S)))` yields the same document as `save(S)` — indeed
`load(save(S))` is `S` itself. -/
theorem C5_round_trip (S : List (String × CachedFile))
    (hnd : (S.map Prod.fst).Nodup) (hwf : StoreInv S) :
    loadStore (save_json S) = (S, none) ∧
    save_json (loadStore (save_json S)).1 = save_json S := by
  have h : loadStore (save_json S) = (S, none) := by
    unfold loadStore save_json
    dsimp only
    exact loadEntries_save_doc S [] hnd hwf (fun p _ => rfl)
  exact ⟨h, by rw [h]⟩

/-- Witness for C5 at a concrete two-entry store. -/
theorem C5_round_trip_witness :
    loadStore (save_json [("a", ⟨"a", "/p1", 5, 6⟩), ("b", ⟨"b", "/p2", 7, 8⟩)]) =
      ([("a", ⟨"a", "/p1", 5, 6⟩), ("b", ⟨"b", "/p2", 7, 8⟩)], none) := by
  exact (C5_round_trip [("a", ⟨"a", "/p1", 5, 6⟩), ("b", ⟨"b", "/p2", 7, 8⟩)]
    (by decide) (by unfold StoreInv; decide)).1

theorem mem_ainsert {α : Type} (l : List (String × α)) (k : String) (v : α)
    (p : String × α) : p ∈ ainsert l k v → p = (k, v) ∨ p ∈ l := by
  induction l with
  | nil =>
    intro hp
    simp [ainsert] at hp
    simp [hp]
  | cons q rest ih =>
    obtain ⟨qk, qv⟩ := q
    intro hp
    by_cases hk : qk = k
    · rw [show ainsert ((qk, qv) :: rest) k v = (qk, v) :: rest by
        simp [ainsert, hk]] at hp
      rcases List.mem_cons.1 hp with hp | hp
      · exact Or.inl (by rw [hp, hk])
      · exact Or.inr (List.mem_cons_of_mem (qk, qv) hp)
    · rw [show ainsert ((qk, qv) :: rest) k v = (qk, qv) :: ainsert rest k v by
        simp [ainsert, hk]] at hp
      rcases List.mem_cons.1 hp with hp | hp
      · exact Or.inr (hp ▸ List.mem_cons_self (qk, qv) rest)
      · rcases ih hp with hh | hh
        · exact Or.inl hh
        · exact Or.inr (List.mem_cons_of_mem (qk, qv) hh)

theorem mem_aerase {α : Type} (l : List (String × α)) (k : String)
    (p : String × α) : p ∈ aerase l k → p ∈ l := by
  induction l with
  | nil => intro hp; simp [aerase] at hp
  | cons q rest ih =>
    obtain ⟨qk, qv⟩ := q
    intro hp
    by_cases hk : qk = k
    · rw [show aerase ((qk, qv) :: rest) k = aerase rest k by
        simp [aerase, hk]] at hp
      exact List.mem_cons_of_mem (qk, qv) (ih hp)
    · rw [show aerase ((qk, qv) :: rest) k = (qk, qv) :: aerase rest k by
        simp [aerase, hk]] at hp
      rcases List.mem_cons.1 hp with hp | hp
      · exact hp ▸ List.mem_cons_self (qk, qv) rest
      · exact List.mem_cons_of_mem (qk, qv) (ih hp)

theorem StoreInv_ainsert (fc : List (String × CachedFile)) (k : String)
    (v : CachedFile) (h : StoreInv fc) (hv : v.url = k) :
    StoreInv (ainsert fc k v) := by
  intro p hp
  rcases mem_ainsert fc k v p hp with hp | hp
  · rw [hp]; exact hv
  · exact h p hp

theorem StoreInv_aerase (fc : List (String × CachedFile)) (k : String)
    (h : StoreInv fc) : StoreInv (aerase fc k) :=
  fun p hp => h p (mem_aerase fc k p hp)

theorem entryOfJson_url (u : String) (j : Json) (cf : CachedFile)
    (h : entryOfJson u j = .ok cf) : cf.url = u := by
  unfold entryOfJson at h
  cases hp : pySubscript j "path" with
  | error e => rw [hp] at h; cases h
  | ok pj =>
    rw [hp] at h
    cases ht : pySubscript j "timestamp" with
    | error e => rw [ht] at h; cases h
    | ok tj =>
      rw [ht] at h
      cases hl : pySubscript j "ttl" with
      | error e => rw [hl] at h; cases h
      | ok lj =>
        rw [hl] at h
        cases pj <;> cases tj <;> cases lj <;> cases h
        rfl

theorem StoreInv_loadEntries (fields : List (String × Json))
    (acc : List (String × CachedFile)) (h : StoreInv acc) :
    StoreInv (loadEntries fields acc).1 := by
  induction fields generalizing acc with
  | nil => exact h
  | cons p rest ih =>
    obtain ⟨u, j⟩ := p
    dsimp only [loadEntries]
    cases he : entryOfJson u j with
    | error e => exact h
    | ok cf => exact ih _ (StoreInv_ainsert _ _ _ h (entryOfJson_url u j cf he))

theorem inv_download_and_cache (env : Env) (st : CacheState) (url : String)
    (h : StoreInv st.file_cache) :
    StoreInv (_download_and_cache_file env st url).2.1.file_cache := by
  unfold _download_and_cache_file _download
  cases env.remote url <;> dsimp only
  · exact h
  · split
    · exact h
    · split
      · exact h
      · split
        · exact h
        · split
          · dsimp [save_cache]
            exact StoreInv_ainsert _ _ _ h rfl
          · exact h

theorem inv_remove_expired (st : CacheState) (cf : CachedFile)
    (h : StoreInv st.file_cache) :
    StoreInv (_remove_expired_file st cf).2.1.file_cache := by
  unfold _remove_expired_file
  cases alookup st.fs cf.path <;> dsimp only
  · exact h
  · cases alookup st.file_cache cf.url <;> dsimp only
    · exact h
    · exact StoreInv_aerase _ _ h

theorem inv_get_cached_file_path (env : Env) (st : CacheState) (url : String)
    (h : StoreInv st.file_cache) :
    StoreInv (_get_cached_file_path env st url).2.1.file_cache := by
  unfold _get_cached_file_path finalLookup
  cases hcf : alookup st.file_cache url with
  | none =>
    dsimp only
    have hinv := inv_download_and_cache env st url h
    rcases hd : _download_and_cache_file env st url with ⟨res, st₁, eff⟩
    rw [hd] at hinv
    dsimp only at hinv
    cases res <;> dsimp only
    · exact hinv
    · cases alookup st₁.file_cache url <;> dsimp only <;> exact hinv
  | some cf =>
    dsimp only
    by_cases hex : cf.is_expired env.now = true
    · rw [if_pos hex]
      have hinv := inv_remove_expired st cf h
      rcases hr : _remove_expired_file st cf with ⟨res, st₁, eff⟩
      rw [hr] at hinv
      dsimp only at hinv
      cases res <;> dsimp only <;> exact hinv
    · rw [if_neg hex]
      dsimp only
      exact h

/-- C9: the key-consistency invariant — every entry in the in-memory map
records the key it is filed under as its `url` — is established by
`_load_file_cache` (which keys entries by the outer document key,
whatever the serialized `url` field says) and preserved by `get_from_url`
(insertion on fetch stores the looked-up url; eviction only removes). -/
theorem C9_store_inv :
    (∀ parse disk, StoreInv (_load_file_cache parse disk).1) ∧
    (∀ env st url, StoreInv st.file_cache →
      StoreInv (get_from_url env st url).2.1.file_cache) := by
  constructor
  · intro parse disk
    unfold _load_file_cache loadStore
    cases disk <;> dsimp only
    · intro p hp; simp at hp
    · next bytes =>
      cases parse bytes <;> dsimp only
      · intro p hp; simp at hp
      · next j =>
        cases j <;> dsimp only
        case obj fields =>
          exact StoreInv_loadEntries fields [] (fun p hp => by simp at hp)
        all_goals intro p hp; simp at hp
  · intro env st url h
    unfold get_from_url
    have hinv := inv_get_cached_file_path env st url h
    rcases hp : _get_cached_file_path env st url with ⟨res, st₁, eff⟩
    rw [hp] at hinv
    dsimp only at hinv
    cases res <;> dsimp only <;> exact hinv

/-- Witness for C9: the invariant holds concretely after a load whose
record carries a mismatched inner `url` field, and after a `get_from_url`
call on a store satisfying it. -/
theorem C9_store_inv_witness :
    StoreInv (_load_file_cache
      (fun _ => some (.obj [("w", recordToJson ⟨"other", "/q", 1, 2⟩)]))
      (some [7])).1 ∧
    StoreInv (get_from_url c9Env c9St "w").2.1.file_cache := by
  refine ⟨C9_store_inv.1
    (fun _ => some (.obj [("w", recordToJson ⟨"other", "/q", 1, 2⟩)]))
    (some [7]), C9_store_inv.2 c9Env c9St "w" ?_⟩
  unfold StoreInv
  decide

end UstCache
